import Mathlib

/-!
Verification of the Blocknet on-chain governance subsystem
(`src/governance/governance.h`), shallowly embedded in Lean 4.

The embedding models the in-memory governance state (proposals, votes and
the by-superblock secondary index) as association lists, matching the
`std::unordered_map` containers of the source; 256-bit digests and key ids
are modelled as `Nat` (an idealised injective hash), heights and coin
amounts as `Int` (the source uses `int` / `int64_t`; no arithmetic here
approaches either width's overflow boundary), and byte strings as
`List Nat`.  `std::set<Vote>` containers — which the source orders and
keys by `Vote::getHash()`, the vote-id digest — are modelled as lists
with the set's keyed-insert semantics (`idInsert`): an insertion whose key
is already present leaves the container unchanged, exactly as
`std::set::insert` does.
-/

namespace Gov

/-- Consensus parameters consumed by the governance code
(`consensus.params` of the spec; `Consensus::Params` in the source).
`blockSubsidy` models `GetBlockSubsidy(height, params)`. -/
structure GovParams where
  superblockPeriod : Int
  governanceBlock : Int
  proposalMaxAmount : Int
  voteBalance : Int
  blockSubsidy : Int → Int

/-- Proposal record as stored by the governance state
(`gov::Proposal`).  `hash` models `Proposal::getHash()` (the identity
digest, treated as an opaque injective value), `address` models the
decoded payout script `GetScriptForDestination(DecodeDestination(address))`
as an opaque value. `blockNumber` is the memory-only containing-block
height. -/
structure SProposal where
  hash : Nat
  superblock : Int
  blockNumber : Int
  amount : Int
  address : Nat
  deriving DecidableEq

/-- Vote record as stored by the governance state (`gov::Vote`).
`hash` models `Vote::getHash()` (the vote-id digest over
version/type/proposal/utxo) and `sigHash` models `Vote::sigHash()`,
both as opaque injective values.  `opHash` is the transaction hash of
the vote's own OP_RETURN outpoint (`getOutpoint().hash`), `keyId`
models `getPubKey().GetID()`.  `spentHash = 0` models a null
`uint256`. -/
structure SVote where
  hash : Nat
  sigHash : Nat
  proposal : Nat
  vote : Nat
  utxo : Nat × Nat
  amount : Int
  opHash : Nat
  keyId : Nat
  time : Int
  blockNumber : Int
  spentBlock : Int
  spentHash : Nat
  deriving DecidableEq

/-- Source `Vote::spend(block, txhash)`: unconditionally records the spending
block and transaction. -/
def SVote.spend (v : SVote) (block : Int) (txhash : Nat) : SVote :=
  { v with spentBlock := block, spentHash := txhash }

/-- Source `Vote::unspend(block, txhash)`: clears the marker only when the
recorded `(spentBlock, spentHash)` equals `(block, txhash)` exactly. -/
def SVote.unspend (v : SVote) (block : Int) (txhash : Nat) : SVote :=
  if v.spentBlock == block && v.spentHash == txhash then
    { v with spentBlock := 0, spentHash := 0 }
  else v

/-- Source `Vote::spent()`: true when `spentBlock > 0`. -/
def SVote.spent (v : SVote) : Bool := v.spentBlock > 0

/-- Source `gov::Tally`. -/
structure Tally where
  cyes : Int := 0
  cno : Int := 0
  cabstain : Int := 0
  yes : Int := 0
  no : Int := 0
  abstain : Int := 0
  deriving DecidableEq

/-- Source `Tally::netyes()`. -/
def Tally.netyes (t : Tally) : Int := t.yes - t.no

/-- Association list, modelling `std::unordered_map` (iteration order of
the model is insertion order, a legitimate instance of the container's
unspecified order). -/
abbrev AList (κ α : Type) := List (κ × α)

/-- Map lookup (`count` / `operator[]` read side). -/
def alGet [BEq κ] (m : AList κ α) (k : κ) : Option α :=
  (m.find? (fun kv => kv.1 == k)).map (·.2)

/-- Map write: overwrite the entry for `k` if present, append otherwise
(`operator[] = v` semantics). -/
def alSet [BEq κ] : AList κ α → κ → α → AList κ α
  | [], k, v => [(k, v)]
  | (k', v') :: rest, k, v =>
    if k' == k then (k, v) :: rest else (k', v') :: alSet rest k v

/-- Models `m[k]` mutation through `operator[]`: default-constructs a value when
the key is absent, then applies the mutation. -/
def alUpd [BEq κ] (m : AList κ α) (k : κ) (d : α) (f : α → α) : AList κ α :=
  match alGet m k with
  | some v => alSet m k (f v)
  | none => m ++ [(k, f d)]

/-- The governance state store: `proposals`, `votes` (both keyed by their
digest) and `sbvotes`, the by-superblock secondary vote index
(`Governance::proposals / votes / sbvotes`). -/
structure GovState where
  proposals : AList Nat SProposal
  votes : AList Nat SVote
  sbvotes : AList Int (AList Nat SVote)
  deriving DecidableEq

/-- Lookup of one vote in the secondary index: `sbvotes[sb][vh]`. -/
def sbGet (m : AList Int (AList Nat SVote)) (sb : Int) (vh : Nat) : Option SVote :=
  match alGet m sb with
  | none => none
  | some inner => alGet inner vh

/-- Write of one vote in the secondary index (through a pointer obtained
from `sbvotes`; the superblock bucket exists whenever the pointer does,
so an absent bucket is left unchanged). -/
def sbSet (m : AList Int (AList Nat SVote)) (sb : Int) (vh : Nat) (x : SVote) :
    AList Int (AList Nat SVote) :=
  match alGet m sb with
  | none => m
  | some inner => alSet m sb (alSet inner vh x)

/-! ### C1 — in-block vote dedup of `Governance::dataFromBlock`
(governance.h:1306-1322).  `votesRet` is a `std::set<Vote>` ordered by
`Vote::getHash()` (the vote-id), so membership and equivalence are by
vote-id. -/

/-- Models `std::set<Vote>::insert`: a no-op when an element with the same
vote-id is already present (`std::set::insert` never overwrites). -/
def idInsert (s : List SVote) (v : SVote) : List SVote :=
  if s.any (fun w => w.hash == v.hash) then s else s ++ [v]

/-- One iteration of the duplicate-vote handling in `dataFromBlock`
(governance.h:1315-1321): if a vote with the same vote-id was already
extracted, compare sig-hashes and call `insert` for the newcomer when its
sig-hash is larger; otherwise `insert` it directly. -/
def dataFromBlockVoteStep (s : List SVote) (v : SVote) : List SVote :=
  if s.any (fun w => w.hash == v.hash) then
    match s.find? (fun w => w.hash == v.hash) with
    | some w => if v.sigHash > w.sigHash then idInsert s v else s
    | none => s
  else idInsert s v

/-- The vote-accumulation of `dataFromBlock` over the votes extracted
from a block, in extraction order. -/
def dataFromBlockVotes (l : List SVote) : List SVote :=
  l.foldl dataFromBlockVoteStep []

/-! ### C2 — Proposal wire serialisation vs hash preimage
(governance.h:280-298).  The codec writes fixed-width little-endian
integers and length-prefixed (CompactSize) byte strings. -/

/-- Little-endian byte encoding, `n` bytes of `v`. -/
def toLE : Nat → Nat → List Nat
  | 0, _ => []
  | n + 1, v => v % 256 :: toLE n (v / 256)

/-- One serialised byte (`uint8_t`). -/
def serU8 (v : Nat) : List Nat := [v % 256]

/-- Serialised 32-bit little-endian integer (`int`). -/
def serI32 (v : Nat) : List Nat := toLE 4 v

/-- Serialised 64-bit little-endian integer (`CAmount`). -/
def serI64 (v : Nat) : List Nat := toLE 8 v

/-- Bitcoin CompactSize length prefix. -/
def serCompactSize (n : Nat) : List Nat :=
  if n < 253 then [n]
  else if n < 2 ^ 16 then 253 :: toLE 2 n
  else if n < 2 ^ 32 then 254 :: toLE 4 n
  else 255 :: toLE 8 n

/-- Serialised byte string: CompactSize length prefix then the raw
bytes. -/
def serStr (s : List Nat) : List Nat := serCompactSize s.length ++ s

/-- Proposal with its serialised fields (`gov::Proposal` at the codec
level): byte strings as byte lists, `superblock`/`amount` as the
non-negative values the serialiser encodes. -/
structure WProposal where
  version : Nat
  type : Nat
  superblock : Nat
  amount : Nat
  address : List Nat
  name : List Nat
  url : List Nat
  description : List Nat
  deriving DecidableEq

/-- The byte sequence hashed by `Proposal::getHash()`
(governance.h:280-284): `version, type, name, superblock, amount,
address, url, description`. -/
def proposalHashBytes (p : WProposal) : List Nat :=
  serU8 p.version ++ serU8 p.type ++ serStr p.name ++ serI32 p.superblock ++
    serI64 p.amount ++ serStr p.address ++ serStr p.url ++ serStr p.description

/-- The wire serialisation written by `Proposal::SerializationOp`
(governance.h:286-298): `version, type, superblock, amount, address,
name, url, description`. -/
def proposalWireBytes (p : WProposal) : List Nat :=
  serU8 p.version ++ serU8 p.type ++ serI32 p.superblock ++ serI64 p.amount ++
    serStr p.address ++ serStr p.name ++ serStr p.url ++ serStr p.description

/-- The shared middle fields (`superblock, amount, address`) that the two
layouts order differently relative to `name`. -/
def proposalMidBytes (p : WProposal) : List Nat :=
  serI32 p.superblock ++ serI64 p.amount ++ serStr p.address

/-! ### State queries (governance.h:1021-1141) -/

/-- Source `Governance::getProposals(superblock)` (governance.h:1021-1029). -/
def getProposalsSB (st : GovState) (superblock : Int) : List SProposal :=
  (st.proposals.map (·.2)).filter (fun p => p.superblock == superblock)

/-- Source `Governance::getProposalsSince(since)` (governance.h:1036-1044). -/
def getProposalsSince (st : GovState) (since : Int) : List SProposal :=
  (st.proposals.map (·.2)).filter (fun p => p.superblock ≥ since)

/-- Source `Governance::getVotes()` (governance.h:1068-1076): all votes that
have not been spent. -/
def getVotesAll (st : GovState) : List SVote :=
  (st.votes.map (·.2)).filter (fun v => !v.spent)

/-- Source `Governance::getVotes(proposalHash)` (governance.h:1083-1099):
unspent votes of the proposal, read through the `sbvotes` index. -/
def getVotesForProposal (st : GovState) (proposalHash : Nat) : List SVote :=
  match alGet st.proposals proposalHash with
  | none => []
  | some proposal =>
    match alGet st.sbvotes proposal.superblock with
    | none => []
    | some vs =>
      (vs.map (·.2)).filter (fun v => v.proposal == proposalHash && !v.spent)

/-- Source `Governance::getVotes(superblock)` (governance.h:1129-1141): unspent
votes in the superblock's bucket. -/
def getVotesInSB (st : GovState) (superblock : Int) : List SVote :=
  match alGet st.sbvotes superblock with
  | none => []
  | some vs => (vs.map (·.2)).filter (fun v => !v.spent)

/-- Source `Governance::getMutableSBVotes(proposalHash)` (governance.h:1106-1122),
values of the returned pointers: unspent votes of the proposal inside
the `sbvotes` bucket. -/
def getMutableSBVotes (st : GovState) (proposalHash : Nat) : List SVote :=
  match alGet st.proposals proposalHash with
  | none => []
  | some proposal =>
    match alGet st.sbvotes proposal.superblock with
    | none => []
    | some vs =>
      ((vs.filter (fun kv => kv.2.proposal == proposalHash && !kv.2.spent)).map (·.2))

/-- Source `Governance::getMutableSBVotes` again, but returning the locations
`(superblock bucket, vote hash key)` of the pointers it hands out; used
to model the pointer-based mutation loops of `processBlock` and
`BlockDisconnected`. -/
def getMutableSBVoteLocs (st : GovState) (proposalHash : Nat) : List (Int × Nat) :=
  match alGet st.proposals proposalHash with
  | none => []
  | some proposal =>
    match alGet st.sbvotes proposal.superblock with
    | none => []
    | some vs =>
      (vs.filter (fun kv => kv.2.proposal == proposalHash && !kv.2.spent)).map
        (fun kv => (proposal.superblock, kv.1))

/-! ### Spend / unspend (governance.h:1151-1213)
The pointer overloads are modelled: the pointer handed out by
`getMutableSBVotes` addresses the entry `sbvotes[sb][vh]`, and the
functions additionally write through `votes`. -/

/-- Default-constructed `gov::Vote` (used by `votes[hash]` when the key
is absent): type VOTE, vote ABSTAIN, all other fields zero/null. -/
def defaultSVote : SVote :=
  { hash := 0, sigHash := 0, proposal := 0, vote := 2, utxo := (0, 0), amount := 0,
    opHash := 0, keyId := 0, time := 0, blockNumber := 0, spentBlock := 0, spentHash := 0 }

/-- Source `Governance::spendVote(Vote*, block, txhash)` (governance.h:1151-1162):
no-op when the vote's proposal is unknown or `block` is past the
proposal's superblock; otherwise spends the pointed vote and the `votes`
entry of the same hash. -/
def spendVoteAt (st : GovState) (sb : Int) (vh : Nat) (block : Int) (txhash : Nat) :
    GovState :=
  match sbGet st.sbvotes sb vh with
  | none => st
  | some v =>
    match alGet st.proposals v.proposal with
    | none => st
    | some p =>
      if block > p.superblock then st
      else
        { st with
          sbvotes := sbSet st.sbvotes sb vh (v.spend block txhash),
          votes := alUpd st.votes v.hash defaultSVote (fun w => w.spend block txhash) }

/-- Source `Governance::unspendVote(Vote*, block, txhash)` (governance.h:1199-1213):
no-op when the vote's proposal is unknown or `block` is past the
proposal's superblock; otherwise unspends the pointed vote and, when
present, the `votes` entry of the same hash. -/
def unspendVoteAt (st : GovState) (sb : Int) (vh : Nat) (block : Int) (txhash : Nat) :
    GovState :=
  match sbGet st.sbvotes sb vh with
  | none => st
  | some v =>
    match alGet st.proposals v.proposal with
    | none => st
    | some p =>
      if block > p.superblock then st
      else
        let st1 := { st with sbvotes := sbSet st.sbvotes sb vh (v.unspend block txhash) }
        match alGet st1.votes v.hash with
        | none => st1
        | some w => { st1 with votes := alSet st1.votes v.hash (w.unspend block txhash) }

/-! ### C4 — the unspend phase of `Governance::BlockDisconnected`
(governance.h:1815-1843): walk all proposals whose superblock is at or
after the disconnected height, collect their vote pointers via
`getMutableSBVotes`, and call `unspendVote` on those whose utxo appears
among the block's spent prevouts. -/

/-- The unspend phase of `BlockDisconnected`.  `prevouts` maps each
prevout spent by the disconnected block to the spending transaction's
hash. -/
def disconnectUnspend (st : GovState) (blockHeight : Int)
    (prevouts : AList (Nat × Nat) Nat) : GovState :=
  let sprops := getProposalsSince st blockHeight
  let locs := sprops.foldl (fun acc p => acc ++ getMutableSBVoteLocs st p.hash) []
  locs.foldl
    (fun s loc =>
      match sbGet s.sbvotes loc.1 loc.2 with
      | none => s
      | some v =>
        match alGet prevouts v.utxo with
        | none => s
        | some txh => unspendVoteAt s loc.1 loc.2 blockHeight txh)
    st

/-! ### C8 — `Governance::getTally` (governance.h:1621-1718) -/

/-- Generic insertion sort by a `le` test; models the sortedness contract
of `std::sort` / the key order of `std::map` iteration (ties keep input
order, one legitimate resolution of `std::sort`'s unspecified tie
order). -/
def insertLe (le : α → α → Bool) (x : α) : List α → List α
  | [] => [x]
  | y :: ys => if le x y then x :: y :: ys else y :: insertLe le x ys

/-- Sort a list by a `le` test. -/
def isortBy (le : α → α → Bool) : List α → List α
  | [] => []
  | x :: xs => insertLe le x (isortBy le xs)

/-- Insert a key into a key set (`std::set`-style: no duplicates). -/
def natInsert (s : List Nat) (n : Nat) : List Nat :=
  if s.contains n then s else s ++ [n]

/-- First-occurrence deduplication of keys. -/
def dedupNat (l : List Nat) : List Nat := l.foldl natInsert []

/-- Build a `std::set<Vote>` (keyed by vote-id) from a list of votes in
insertion order: first occurrence of each vote-id wins. -/
def idSetOf (l : List SVote) : List SVote := l.foldl idInsert []

/-- One vote's contribution inside the per-group amount accumulation of
`getTally` (governance.h:1686-1693): add the vote's utxo amount to the
bucket of its vote kind. -/
def subTallyStep (t : Tally) (v : SVote) : Tally :=
  if v.vote == 1 then { t with cyes := t.cyes + v.amount }
  else if v.vote == 0 then { t with cno := t.cno + v.amount }
  else if v.vote == 2 then { t with cabstain := t.cabstain + v.amount }
  else t

/-- The per-group amount accumulation of `getTally`
(governance.h:1685-1693). -/
def subTallyAmounts (l : List SVote) : Tally := l.foldl subTallyStep {}

/-- The count fields of a sub-tally (governance.h:1694-1703): integer
division of each amount bucket by `voteBalance`, clamped at zero. -/
def finishTally (params : GovParams) (t : Tally) : Tally :=
  let y := t.cyes / params.voteBalance
  let n := t.cno / params.voteBalance
  let a := t.cabstain / params.voteBalance
  { t with
    yes := if y < 0 then 0 else y,
    no := if n < 0 then 0 else n,
    abstain := if a < 0 then 0 else a }

/-- Componentwise sum of two tallies (the final accumulation loop of
`getTally`, governance.h:1707-1716). -/
def addTally (a t : Tally) : Tally :=
  { cyes := a.cyes + t.cyes, cno := a.cno + t.cno, cabstain := a.cabstain + t.cabstain,
    yes := a.yes + t.yes, no := a.no + t.no, abstain := a.abstain + t.abstain }

/-- One iteration of the per-transaction-group loop of `getTally`
(governance.h:1655-1705) over the group key `k`: build the group's vote
set, extend it with every destination group reachable from it, drop
votes already counted, record the remainder as counted and emit its
sub-tally. -/
def tallyStep (pvs : List SVote) (params : GovParams)
    (acc : List SVote × List Tally) (k : Nat) : List SVote × List Tally :=
  let g := idSetOf (pvs.filter (fun v => v.opHash == k))
  let allU := g.foldl
    (fun a v => (idSetOf (pvs.filter (fun w => w.keyId == v.keyId))).foldl idInsert a) g
  let fresh := allU.filter (fun v => !(acc.1.any (fun w => w.hash == v.hash)))
  if fresh.isEmpty then acc
  else (acc.1 ++ fresh, acc.2 ++ [finishTally params (subTallyAmounts fresh)])

/-- Source `Governance::getTally(proposal, votes, params)`
(governance.h:1621-1718): filter the votes to the proposal, group them
by enclosing transaction hash (a `std::map`, iterated in ascending key
order) cross-referenced with destination groups, count each vote-id at
most once via the `counted` set, and sum the per-group sub-tallies. -/
def getTally (proposal : Nat) (votes : List SVote) (params : GovParams) : Tally :=
  let pvs := votes.filter (fun v => v.proposal == proposal)
  let keys := isortBy (fun a b => decide (a ≤ b)) (dedupNat (pvs.map (·.opHash)))
  let r := keys.foldl (tallyStep pvs params) ([], [])
  r.2.foldl addTally {}

/-! ### C5/C6 — `Governance::getSuperblockResults` and
`Governance::isValidSuperblock` (governance.h:1333-1374, 1409-1455) -/

/-- Source `Governance::isSuperblock` (governance.h:1536-1538). -/
def isSuperblock (blockHeight : Int) (params : GovParams) : Bool :=
  blockHeight ≥ params.governanceBlock && blockHeight % params.superblockPeriod == 0

/-- Source `Governance::getProposalsForSuperblock` (governance.h:1383-1398):
proposals scheduled for the superblock together with the unspent votes
referencing them. -/
def getProposalsForSuperblock (st : GovState) (superblock : Int) :
    List SProposal × List SVote :=
  let ps := getProposalsSB st superblock
  let vs := getVotesInSB st superblock
  let allP := ps.filter (fun p => p.superblock == superblock)
  let hashes := allP.map (·.hash)
  (allP, vs.filter (fun v => hashes.contains v.proposal))

/-- The unique-utxo amount accumulation of `getSuperblockResults`
(governance.h:1343-1349): sum each distinct voting utxo's amount once. -/
def uniqueAmountOf (vs : List SVote) : Int :=
  (vs.foldl
    (fun (acc : List (Nat × Nat) × Int) v =>
      if acc.1.contains v.utxo then acc else (v.utxo :: acc.1, acc.2 + v.amount))
    ([], 0)).2

/-- The drop condition of `getSuperblockResults` (governance.h:1361-1371),
rendered with exact integer comparisons: for `int`-valued tallies the
source's double comparisons `yes/yaynay < 0.6` and
`total < uniqueVotes * 0.25` coincide with `5*yes < 3*yaynay` and
`4*total < uniqueVotes` (division is correctly rounded and monotone, 0.25
is exact, and no fraction of 32-bit integers lies strictly between 3/5
and the double nearest to 0.6). -/
def sbDropCond (uniqueVotes : Int) (t : Tally) : Bool :=
  let total := t.yes + t.no + t.abstain
  let yaynay := t.yes + t.no
  yaynay == 0 || 5 * t.yes < 3 * yaynay || 4 * total < uniqueVotes || t.yes ≤ 0

/-- Source `Governance::getSuperblockResults(superblock, params)`
(governance.h:1333-1374): tally every proposal scheduled for the
superblock and erase entries failing the yes-percentage, participation
or positive-yes requirements.  (The erase-while-iterating loop over the
result map is rendered as a filter.) -/
def getSuperblockResults (st : GovState) (superblock : Int) (params : GovParams) :
    List (SProposal × Tally) :=
  if !(isSuperblock superblock params) then []
  else
    let pv := getProposalsForSuperblock st superblock
    let uniqueVotes := uniqueAmountOf pv.2 / params.voteBalance
    ((pv.1.map (fun p => (p, getTally p.hash pv.2 params))).filter
      (fun pt => !(sbDropCond uniqueVotes pt.2)))

/-! ### C7 — `Governance::getSuperblockPayees` (governance.h:1727-1766) -/

/-- A transaction output `CTxOut`; `scriptPubKey` models
`GetScriptForDestination(DecodeDestination(address))` opaquely by the
proposal's `address` value. -/
structure GTxOut where
  nValue : Int
  scriptPubKey : Nat
  deriving DecidableEq

/-- The sort comparator of `getSuperblockPayees`
(governance.h:1738-1746), translated branch for branch. -/
def srcCmp (a b : SProposal × Tally) : Bool :=
  if a.2.netyes == b.2.netyes && a.2.yes == b.2.yes then
    a.1.blockNumber < b.1.blockNumber
  else if a.2.netyes == b.2.netyes then a.2.yes > b.2.yes
  else a.2.netyes > b.2.netyes

/-- The budget-filling do-while loop of `getSuperblockPayees`
(governance.h:1753-1763): in order, emit a payee when its amount still
fits (`superblockTotal - amount >= 0`) and deduct it, otherwise drop the
proposal and continue. -/
def payeeFill : Int → List (SProposal × Tally) → List GTxOut
  | _, [] => []
  | budget, r :: rest =>
    if budget - r.1.amount ≥ 0 then
      ⟨r.1.amount, r.1.address⟩ :: payeeFill (budget - r.1.amount) rest
    else payeeFill budget rest

/-- Source `Governance::getSuperblockPayees(superblock, results, params)`
(governance.h:1727-1766): sort the surviving proposals with `srcCmp` and
greedily fill a budget of `min(proposalMaxAmount, blockSubsidy)`. -/
def getSuperblockPayees (superblock : Int) (results : List (SProposal × Tally))
    (params : GovParams) : List GTxOut :=
  if results.isEmpty then []
  else
    payeeFill (min params.proposalMaxAmount (params.blockSubsidy superblock))
      (isortBy (fun a b => !(srcCmp b a)) results)

/-! ### C5 — `Governance::isValidSuperblock` (governance.h:1409-1455) -/

/-- A block as consumed by `isValidSuperblock`: proof-of-stake flag and
the output lists of its transactions. -/
structure GBlock where
  isPoS : Bool
  vtx : List (List GTxOut)

/-- Index of the last element of `ps` equal to `x` (the
highest-index-first search loop of governance.h:1442-1448). -/
def findLastIdx (x : GTxOut) : List GTxOut → Option Nat
  | [] => none
  | y :: ys =>
    match findLastIdx x ys with
    | some i => some (i + 1)
    | none => if y == x then some 0 else none

/-- The `remove_if` pass of `isValidSuperblock` (governance.h:1439-1450):
walk the block outputs in order; an output matching a remaining payee
consumes that payee (last match first) and is dropped, others are
kept. Returns (unmatched outputs, unconsumed payees). -/
def matchPayees : List GTxOut → List GTxOut → List GTxOut × List GTxOut
  | [], ps => ([], ps)
  | v :: vs, ps =>
    match findLastIdx v ps with
    | some i => matchPayees vs (ps.eraseIdx i)
    | none =>
      let r := matchPayees vs ps
      (v :: r.1, r.2)

/-- Source `Governance::isValidSuperblock(block, blockHeight, params, paymentsRet)`
(governance.h:1409-1455), validity flag only.  A missing second
transaction (an out-of-bounds `vtx[1]` access in the source) is modelled
as rejection. -/
def isValidSuperblock (st : GovState) (block : GBlock) (blockHeight : Int)
    (params : GovParams) : Bool :=
  if !(isSuperblock blockHeight params) then false
  else if !block.isPoS then false
  else
    let results := getSuperblockResults st blockHeight params
    if results.isEmpty then true
    else
      let payees := getSuperblockPayees blockHeight results params
      if payees.isEmpty then false
      else
        match block.vtx[1]? with
        | none => false
        | some vouts =>
          if (vouts.length : Int) - (payees.length : Int) > 2 then false
          else
            let mp := matchPayees vouts payees
            decide (mp.1.length ≤ 2) && mp.2.isEmpty

/-! ### C3 — codec extraction of `Governance::dataFromBlock`
(governance.h:1250-1325).

Modelled from the spec: the byte-stream deserialiser (`CDataStream` and
the serialisation framework of `streams.h` / `serialize.h`) is not under
`src/`; per §4.1 of the spec, "any parse failure (length mismatch,
truncated field, invalid utf-8 in strings) causes the output to be
skipped without failing the enclosing transaction", so deserialisation
is modelled as an `Option`-returning parser and a failed parse skips the
single output. -/

/-- Decode a little-endian byte list to a number. -/
def fromLE : List Nat → Nat
  | [] => 0
  | b :: rest => b % 256 + 256 * fromLE rest

/-- Read exactly `n` bytes; fails when the stream is shorter
(a truncated field). -/
def readN (n : Nat) (l : List Nat) : Option (List Nat × List Nat) :=
  if l.length < n then none else some (l.take n, l.drop n)

/-- Read a CompactSize length prefix. -/
def readCompactSize (l : List Nat) : Option (Nat × List Nat) :=
  match l with
  | [] => none
  | b :: rest =>
    if b < 253 then some (b, rest)
    else if b = 253 then (readN 2 rest).map (fun br => (fromLE br.1, br.2))
    else if b = 254 then (readN 4 rest).map (fun br => (fromLE br.1, br.2))
    else (readN 8 rest).map (fun br => (fromLE br.1, br.2))

/-- Read a length-prefixed byte string; fails when the declared length
exceeds the remaining stream (a length mismatch). -/
def readStr (l : List Nat) : Option (List Nat × List Nat) :=
  match readCompactSize l with
  | none => none
  | some nr => readN nr.1 nr.2

/-- Parse the two-byte `NetworkObject` header (governance.h:119-146):
`version` then `type`. -/
def parseHeader (l : List Nat) : Option (Nat × Nat) :=
  match l with
  | v :: t :: _ => some (v, t)
  | _ => none

/-- Parse a full proposal payload in the wire order of
`Proposal::SerializationOp`: `version, type, superblock, amount,
address, name, url, description`. -/
def parseProposal (l : List Nat) : Option WProposal :=
  match readN 1 l with
  | none => none
  | some vr =>
    match readN 1 vr.2 with
    | none => none
    | some tr =>
      match readN 4 tr.2 with
      | none => none
      | some sr =>
        match readN 8 sr.2 with
        | none => none
        | some ar =>
          match readStr ar.2 with
          | none => none
          | some addr =>
            match readStr addr.2 with
            | none => none
            | some nm =>
              match readStr nm.2 with
              | none => none
              | some url =>
                match readStr url.2 with
                | none => none
                | some desc =>
                  some
                    { version := fromLE vr.1, type := fromLE tr.1,
                      superblock := fromLE sr.1, amount := fromLE ar.1,
                      address := addr.1, name := nm.1, url := url.1,
                      description := desc.1 }

/-- Vote at the codec level (`gov::Vote`'s serialised fields, in the
wire order of `Vote::SerializationOp`): `version, type, proposal, vote,
utxo, vinhash, signature`. -/
structure WVote where
  version : Nat
  type : Nat
  proposal : List Nat
  vote : Nat
  utxo : List Nat × Nat
  vinhash : List Nat
  signature : List Nat
  deriving DecidableEq

/-- Parse a full vote payload in the wire order of
`Vote::SerializationOp`. -/
def parseVote (l : List Nat) : Option WVote :=
  match readN 1 l with
  | none => none
  | some vr =>
    match readN 1 vr.2 with
    | none => none
    | some tr =>
      match readN 32 tr.2 with
      | none => none
      | some pr =>
        match readN 1 pr.2 with
        | none => none
        | some kr =>
          match readN 32 kr.2 with
          | none => none
          | some uh =>
            match readN 4 uh.2 with
            | none => none
            | some un =>
              match readN 12 un.2 with
              | none => none
              | some vh =>
                match readStr vh.2 with
                | none => none
                | some sig =>
                  some
                    { version := fromLE vr.1, type := fromLE tr.1, proposal := pr.1,
                      vote := fromLE kr.1, utxo := (uh.1, fromLE un.1),
                      vinhash := vh.1, signature := sig.1 }

/-- A blob is malformed when its header is truncated, or it carries the
expected version but its typed body fails to parse (truncated field or
length mismatch). -/
def malformedBlob (b : List Nat) : Bool :=
  match parseHeader b with
  | none => true
  | some vt =>
    vt.1 == 1 &&
      ((vt.2 == 1 && (parseProposal b).isNone) ||
        (vt.2 == 2 && (parseVote b).isNone))

/-- A transaction output as seen by `dataFromBlock`: the OP_RETURN
push-data extracted by the script walk of governance.h:1259-1275 (empty
when the output carries no push-data). -/
structure GOut where
  blob : List Nat
  deriving DecidableEq

/-- A transaction: coinbase flag and outputs. -/
structure GTx where
  isCoinBase : Bool
  outs : List GOut
  deriving DecidableEq

/-- The proposals and votes accumulated by `dataFromBlock`
(`proposalsRet` / `votesRet`). -/
structure ExtractAcc where
  props : List WProposal
  votes : List WVote
  deriving DecidableEq

/-- The vote-id of a serialised vote: the fields covered by
`Vote::getHash()` — `version, type, proposal, utxo`
(governance.h:528-532); the digest is injective on them, so the tuple
stands for it. -/
def wVoteId (v : WVote) : Nat × Nat × List Nat × (List Nat × Nat) :=
  (v.version, v.type, v.proposal, v.utxo)

/-- Source `proposalsRet.insert`: `std::set<Proposal>` keyed by
`Proposal::getHash()`, a digest of all serialised fields, hence by full
record equality. -/
def insertWProposal (s : List WProposal) (p : WProposal) : List WProposal :=
  if s.contains p then s else s ++ [p]

/-- The duplicate-vote handling of `dataFromBlock` at the codec level
(governance.h:1315-1321); `sigH` abstracts the `sigHash()` digest
(crypto is an external collaborator). `insert` is a no-op on a present
vote-id, as in C1's model. -/
def insertWVote (sigH : WVote → Nat) (s : List WVote) (v : WVote) : List WVote :=
  if s.any (fun w => wVoteId w == wVoteId v) then
    match s.find? (fun w => wVoteId w == wVoteId v) with
    | some w =>
      if sigH v > sigH w then
        (if s.any (fun u => wVoteId u == wVoteId v) then s else s ++ [v])
      else s
    | none => s
  else s ++ [v]

/-- Processing of one transaction output inside `dataFromBlock`
(governance.h:1257-1322): skip outputs without push-data; parse the
header, requiring the network version; dispatch on the type byte;
re-parse the full payload; validate (`pValid` abstracts
`Proposal::isValid` plus the proposal cutoff, `vValid` abstracts
`Vote::isValid` plus the proposal-existence and voting-cutoff checks —
component C2 of the spec, external to the codec); insert into the
accumulated sets. -/
def govOutStep (pValid : WProposal → Bool) (vValid : WVote → Bool) (sigH : WVote → Nat)
    (acc : ExtractAcc) (o : GOut) : ExtractAcc :=
  if o.blob.isEmpty then acc
  else
    match parseHeader o.blob with
    | none => acc
    | some vt =>
      if vt.1 ≠ 1 then acc
      else if vt.2 = 1 then
        match parseProposal o.blob with
        | none => acc
        | some p => if pValid p then { acc with props := insertWProposal acc.props p } else acc
      else if vt.2 = 2 then
        match parseVote o.blob with
        | none => acc
        | some v => if vValid v then { acc with votes := insertWVote sigH acc.votes v } else acc
      else acc

/-- Source `Governance::dataFromBlock` over a block (governance.h:1253-1324):
fold over the transactions, skipping coinbases, and over each
transaction's outputs. -/
def govDataFromBlock (pValid : WProposal → Bool) (vValid : WVote → Bool)
    (sigH : WVote → Nat) (txs : List GTx) : ExtractAcc :=
  txs.foldl
    (fun acc tx =>
      if tx.isCoinBase then acc else tx.outs.foldl (govOutStep pValid vValid sigH) acc)
    ⟨[], []⟩

/-! ### Spec-side definitions (named after the claims they serve; each
is written from the specification's words, for comparison against the
source-level definitions above). -/

/-- Spec-side keep-condition of claim C6: `yes + no > 0`,
`yes / (yes + no) ≥ 0.60`, `yes + no + abstain ≥ 0.25 × uniqueVotes` and
`yes > 0`, in exact arithmetic. -/
def specKeepCond (uniqueVotes : Int) (t : Tally) : Bool :=
  (t.yes + t.no > 0) && (5 * t.yes ≥ 3 * (t.yes + t.no)) &&
    (4 * (t.yes + t.no + t.abstain) ≥ uniqueVotes) && (t.yes > 0)

/-- Spec-side sort comparator of claim C7: `netYes` descending, then
`yes` descending, then `blockNumber` ascending. -/
def specCmp (a b : SProposal × Tally) : Bool :=
  if a.2.netyes ≠ b.2.netyes then a.2.netyes > b.2.netyes
  else if a.2.yes ≠ b.2.yes then a.2.yes > b.2.yes
  else a.1.blockNumber < b.1.blockNumber

/-- Spec-side greedy budget fill of claim C7: in sort order, a proposal
whose amount is at most the remaining budget is emitted and deducted; a
proposal that does not fit is skipped. -/
def specGreedy : Int → List (SProposal × Tally) → List GTxOut
  | _, [] => []
  | remaining, r :: rest =>
    if r.1.amount ≤ remaining then
      ⟨r.1.amount, r.1.address⟩ :: specGreedy (remaining - r.1.amount) rest
    else specGreedy remaining rest

/-- Sum of the utxo amounts of the votes of one kind in a list (used to
state claim C8's at-most-once contribution). -/
def sumKind (kind : Nat) (l : List SVote) : Int :=
  ((l.filter (fun v => v.vote == kind)).map (·.amount)).sum

/-! ### Concrete instances used by counterexamples and witnesses -/

/-- Two votes sharing one vote-id and one (block) time, extracted in this
order from a block; the second carries the larger sig-hash. -/
def c1VoteA : SVote :=
  { hash := 5, sigHash := 1, proposal := 10, vote := 1, utxo := (7, 0), amount := 100,
    opHash := 3, keyId := 4, time := 500, blockNumber := 155, spentBlock := 0, spentHash := 0 }

/-- The competing vote: same vote-id and time as `c1VoteA`, larger
sig-hash, different vote kind. -/
def c1VoteB : SVote :=
  { hash := 5, sigHash := 2, proposal := 10, vote := 0, utxo := (7, 0), amount := 100,
    opHash := 3, keyId := 4, time := 500, blockNumber := 155, spentBlock := 0, spentHash := 0 }

/-- A proposal whose one-byte name makes the hash preimage and the wire
bytes diverge at the third byte. -/
def c2Proposal : WProposal :=
  { version := 1, type := 1, superblock := 200, amount := 0,
    address := [], name := [97], url := [], description := [] }

/-- Proposal for superblock 200, first seen at height 150. -/
def c4Proposal : SProposal :=
  { hash := 10, superblock := 200, blockNumber := 150, amount := 100, address := 1 }

/-- A vote on that proposal whose utxo was spent at height 160 by the
transaction with hash 99. -/
def c4Vote : SVote :=
  { hash := 20, sigHash := 0, proposal := 10, vote := 1, utxo := (7, 0), amount := 100,
    opHash := 3, keyId := 4, time := 0, blockNumber := 155, spentBlock := 160, spentHash := 99 }

/-- State holding `c4Proposal` and the spent `c4Vote` in both vote
maps. -/
def c4State : GovState :=
  { proposals := [(10, c4Proposal)], votes := [(20, c4Vote)],
    sbvotes := [(200, [(20, c4Vote)])] }

/-- Spent prevouts of the block being disconnected at height 160: it
consumed the vote's utxo in transaction 99. -/
def c4Prevouts : AList (Nat × Nat) Nat := [((7, 0), 99)]

/-- Parameters with superblock period 100 and activation height 100. -/
def cParams : GovParams :=
  { superblockPeriod := 100, governanceBlock := 100, proposalMaxAmount := 1000,
    voteBalance := 1, blockSubsidy := fun _ => 1000 }

/-- The empty governance state. -/
def cEmptyState : GovState := { proposals := [], votes := [], sbvotes := [] }

/-- A proof-of-stake block with no transactions. -/
def cBlockPoS : GBlock := { isPoS := true, vtx := [] }

/-- Proposal A of the claim C7 example: amount 100. -/
def c7PropA : SProposal :=
  { hash := 1, superblock := 100, blockNumber := 10, amount := 100, address := 111 }

/-- Proposal B of the claim C7 example: amount 50. -/
def c7PropB : SProposal :=
  { hash := 2, superblock := 100, blockNumber := 11, amount := 50, address := 222 }

/-- The C7 example result set: `netYes(A) = 5`, `netYes(B) = 10`. -/
def c7Results : List (SProposal × Tally) :=
  [(c7PropA, { cyes := 500, cno := 0, cabstain := 0, yes := 5, no := 0, abstain := 0 }),
   (c7PropB, { cyes := 1000, cno := 0, cabstain := 0, yes := 10, no := 0, abstain := 0 })]

/-- Parameters giving a superblock budget of 120. -/
def c7ParamsA : GovParams :=
  { superblockPeriod := 100, governanceBlock := 100, proposalMaxAmount := 120,
    voteBalance := 1, blockSubsidy := fun _ => 100000 }

/-- Parameters giving a superblock budget of 150. -/
def c7ParamsB : GovParams :=
  { superblockPeriod := 100, governanceBlock := 100, proposalMaxAmount := 150,
    voteBalance := 1, blockSubsidy := fun _ => 100000 }

/-- Proposal with superblock 10 used by the claim C9 instances. -/
def c9Proposal : SProposal :=
  { hash := 10, superblock := 10, blockNumber := 1, amount := 100, address := 1 }

/-- An unspent vote on `c9Proposal`. -/
def c9Vote : SVote :=
  { hash := 20, sigHash := 0, proposal := 10, vote := 1, utxo := (7, 0), amount := 100,
    opHash := 3, keyId := 4, time := 0, blockNumber := 5, spentBlock := 0, spentHash := 0 }

/-- State holding `c9Proposal` and the unspent `c9Vote`. -/
def c9State : GovState :=
  { proposals := [(10, c9Proposal)], votes := [(20, c9Vote)],
    sbvotes := [(10, [(20, c9Vote)])] }

/-- The same vote already marked spent at block 5 by transaction 77. -/
def c9SpentVote : SVote := { c9Vote with spentBlock := 5, spentHash := 77 }

/-- State holding `c9Proposal` and the already-spent `c9SpentVote`. -/
def c9SpentState : GovState :=
  { proposals := [(10, c9Proposal)], votes := [(20, c9SpentVote)],
    sbvotes := [(10, [(20, c9SpentVote)])] }

/-! ### Helper lemmas -/

/-- Two booleans are equal when their truths are equivalent. -/
theorem bool_eq_of_iff {a b : Bool} (h : a = true ↔ b = true) : a = b := by
  cases a <;> cases b <;> simp_all

/-- Lookup after a cons. -/
theorem alGet_cons [BEq κ] (k' : κ) (v' : α) (rest : AList κ α) (k : κ) :
    alGet ((k', v') :: rest) k = if k' == k then some v' else alGet rest k := by
  by_cases h : k' == k
  · simp [alGet, List.find?_cons_of_pos, h]
  · simp only [alGet, if_neg h]
    rw [List.find?_cons_of_neg]
    simpa using h

/-- Lookup after a write at the same key. -/
theorem alGet_alSet_self [BEq κ] [LawfulBEq κ] (m : AList κ α) (k : κ) (v : α) :
    alGet (alSet m k v) k = some v := by
  induction m with
  | nil => simp [alSet, alGet_cons]
  | cons kv rest ih =>
    rcases kv with ⟨k', v'⟩
    by_cases h : k' == k
    · simp [alSet, h, alGet_cons]
    · simp [alSet, h, alGet_cons, ih]

/-- Writing the same key twice keeps only the second write. -/
theorem alSet_alSet [BEq κ] [LawfulBEq κ] (m : AList κ α) (k : κ) (a b : α) :
    alSet (alSet m k a) k b = alSet m k b := by
  induction m with
  | nil => simp [alSet]
  | cons kv rest ih =>
    rcases kv with ⟨k', v'⟩
    by_cases h : k' == k
    · simp [alSet, h]
    · simp [alSet, h, ih]

/-- Writing back the value a key already holds leaves the map
unchanged. -/
theorem alSet_of_get_eq [BEq κ] [LawfulBEq κ] {m : AList κ α} {k : κ} {v : α}
    (h : alGet m k = some v) : alSet m k v = m := by
  induction m with
  | nil => simp [alGet] at h
  | cons kv rest ih =>
    rcases kv with ⟨k', v'⟩
    rw [alGet_cons] at h
    by_cases hk : k' == k
    · rw [if_pos hk] at h
      cases h
      simp only [alSet, if_pos hk]
      rw [eq_of_beq hk]
    · rw [if_neg hk] at h
      simp [alSet, hk, ih h]

/-- Split a successful nested lookup in the superblock index. -/
theorem sbGet_elim {m : AList Int (AList Nat SVote)} {sb : Int} {vh : Nat} {v : SVote}
    (h : sbGet m sb vh = some v) :
    ∃ inner, alGet m sb = some inner ∧ alGet inner vh = some v := by
  revert h
  unfold sbGet
  cases hm : alGet m sb with
  | none => intro h; cases h
  | some inner => intro h; exact ⟨inner, rfl, h⟩

/-- Nested lookup after a nested write at the same location. -/
theorem sbGet_sbSet_self {m : AList Int (AList Nat SVote)} {sb : Int} {vh : Nat}
    {v : SVote} (x : SVote) (h : sbGet m sb vh = some v) :
    sbGet (sbSet m sb vh x) sb vh = some x := by
  obtain ⟨inner, h1, h2⟩ := sbGet_elim h
  simp only [sbSet, sbGet, h1, alGet_alSet_self]

/-- Nested double write at one location keeps only the second write. -/
theorem sbSet_sbSet {m : AList Int (AList Nat SVote)} {sb : Int} {vh : Nat} {v : SVote}
    (a b : SVote) (h : sbGet m sb vh = some v) :
    sbSet (sbSet m sb vh a) sb vh b = sbSet m sb vh b := by
  obtain ⟨inner, h1, h2⟩ := sbGet_elim h
  simp only [sbSet, h1, alGet_alSet_self, alSet_alSet]

/-- Writing back the vote a location already holds leaves the index
unchanged. -/
theorem sbSet_of_get_eq {m : AList Int (AList Nat SVote)} {sb : Int} {vh : Nat}
    {v : SVote} (h : sbGet m sb vh = some v) : sbSet m sb vh v = m := by
  obtain ⟨inner, h1, h2⟩ := sbGet_elim h
  simp only [sbSet, h1, alSet_of_get_eq h2, alSet_of_get_eq h1]

/-- Spending and then unspending with the same `(block, txhash)` restores
a vote whose marker was clear. -/
theorem spend_unspend_self {v : SVote} {h : Int} {t : Nat}
    (hb : v.spentBlock = 0) (hh : v.spentHash = 0) :
    (v.spend h t).unspend h t = v := by
  cases v
  simp_all [SVote.spend, SVote.unspend]

/-- Source `Vote::unspend` leaves the vote unchanged unless the recorded marker
matches exactly. -/
theorem unspend_of_ne {v : SVote} {h : Int} {t : Nat}
    (hne : ¬(v.spentBlock = h ∧ v.spentHash = t)) : v.unspend h t = v := by
  unfold SVote.unspend
  rw [if_neg]
  simp only [Bool.and_eq_true, beq_iff_eq]
  exact hne

/-- Middle blocks of a concatenation with shared prefix and suffix can be
compared directly. -/
theorem append_middle_cancel {α : Type} {A N M T : List α} :
    A ++ (N ++ (M ++ T)) = A ++ (M ++ (N ++ T)) ↔ N ++ M = M ++ N := by
  constructor
  · intro h
    have h1 := List.append_cancel_left h
    have h2 : (N ++ M) ++ T = (M ++ N) ++ T := by simpa [List.append_assoc] using h1
    exact List.append_cancel_right h2
  · intro h
    have h2 : (N ++ M) ++ T = (M ++ N) ++ T := by rw [h]
    have h1 : N ++ (M ++ T) = M ++ (N ++ T) := by simpa [List.append_assoc] using h2
    rw [h1]

/-! ### Claim theorems -/

/-- C1: within one block, when two extracted votes share a vote-id,
`dataFromBlock` does NOT retain the larger-sig-hash vote: because
`std::set::insert` never replaces a present equivalent element, the
first-extracted vote survives even when the second has equal time and a
strictly larger sig-hash.  Evaluated here at the failing input: two
votes with equal vote-id and time, the second with the larger sig-hash,
and the extraction keeps the first. -/
theorem claim_C1_keeps_first_vote :
    c1VoteA.hash = c1VoteB.hash ∧ c1VoteA.time = c1VoteB.time ∧
    c1VoteB.sigHash > c1VoteA.sigHash ∧ c1VoteB ≠ c1VoteA ∧
    dataFromBlockVotes [c1VoteA, c1VoteB] = [c1VoteA] := by decide

/-- C2 counterexample: a concrete proposal whose `getHash` preimage
differs from its wire serialisation, refuting "wire format and hashing
format are identical". -/
theorem claim_C2_counterexample :
    proposalHashBytes c2Proposal ≠ proposalWireBytes c2Proposal := by decide

/-- C2 (amended): the identity digest is computed over the fields in the
order `version, type, name, superblock, amount, address, url,
description`, whereas the wire order is `version, type, superblock,
amount, address, name, url, description`; the two byte sequences consist
of the same field encodings and coincide exactly when the encoded name
commutes with the encoded superblock-amount-address block (which fails
in general, see the counterexample). -/
theorem claim_C2_hash_vs_wire : ∀ p : WProposal,
    proposalHashBytes p =
      (serU8 p.version ++ serU8 p.type) ++
        (serStr p.name ++ (proposalMidBytes p ++ (serStr p.url ++ serStr p.description))) ∧
    proposalWireBytes p =
      (serU8 p.version ++ serU8 p.type) ++
        (proposalMidBytes p ++ (serStr p.name ++ (serStr p.url ++ serStr p.description))) ∧
    (proposalHashBytes p = proposalWireBytes p ↔
      serStr p.name ++ proposalMidBytes p = proposalMidBytes p ++ serStr p.name) := by
  intro p
  have e1 : proposalHashBytes p =
      (serU8 p.version ++ serU8 p.type) ++
        (serStr p.name ++ (proposalMidBytes p ++ (serStr p.url ++ serStr p.description))) := by
    simp [proposalHashBytes, proposalMidBytes, List.append_assoc]
  have e2 : proposalWireBytes p =
      (serU8 p.version ++ serU8 p.type) ++
        (proposalMidBytes p ++ (serStr p.name ++ (serStr p.url ++ serStr p.description))) := by
    simp [proposalWireBytes, proposalMidBytes, List.append_assoc]
  refine ⟨e1, e2, ?_⟩
  rw [e1, e2]
  exact append_middle_cancel

/-- C4: after disconnecting the block at height 160 whose inputs spent
`c4Vote`'s utxo (recorded `spentBlock = 160`), the vote's proposal has
superblock 200 ≥ 160 and its utxo is among the block's prevouts, yet the
unspend phase of `BlockDisconnected` leaves the state unchanged and the
vote still marked spent: `getMutableSBVotes` filters out spent votes, so
the votes this phase is meant to revert are never handed to
`unspendVote`. -/
theorem claim_C4_disconnect_noop :
    c4Proposal.superblock ≥ 160 ∧
    alGet c4Prevouts c4Vote.utxo = some 99 ∧
    c4Vote.spentBlock = 160 ∧
    getMutableSBVotes c4State 10 = [] ∧
    disconnectUnspend c4State 160 c4Prevouts = c4State ∧
    (sbGet c4State.sbvotes 200 20).map SVote.spent = some true := by decide

/-- Spending preserves the vote-id digest. -/
theorem spend_hash (v : SVote) (b : Int) (t : Nat) : (v.spend b t).hash = v.hash := rfl

/-- Spending preserves the referenced proposal. -/
theorem spend_proposal (v : SVote) (b : Int) (t : Nat) :
    (v.spend b t).proposal = v.proposal := rfl

/-- C9 (amended): for a vote present and consistent in both vote maps
whose spent marker is clear, `spendVote` followed by `unspendVote` with
the same `(block, txhash)` is the identity on the governance state; and
`unspendVote` changes nothing unless the recorded
`(spentBlock, spentHash)` equals `(block, txhash)` exactly. -/
theorem claim_C9_spend_unspend :
    (∀ (st : GovState) (sb : Int) (vh : Nat) (h : Int) (t : Nat) (v : SVote),
      sbGet st.sbvotes sb vh = some v →
      alGet st.votes v.hash = some v →
      v.spentBlock = 0 → v.spentHash = 0 →
      unspendVoteAt (spendVoteAt st sb vh h t) sb vh h t = st) ∧
    (∀ (st : GovState) (sb : Int) (vh : Nat) (h : Int) (t : Nat) (w : SVote),
      sbGet st.sbvotes sb vh = some w →
      alGet st.votes w.hash = some w →
      ¬(w.spentBlock = h ∧ w.spentHash = t) →
      unspendVoteAt st sb vh h t = st) := by
  constructor
  · intro st sb vh h t v hsb hv hb hh
    have hupd : alUpd st.votes v.hash defaultSVote (fun w => w.spend h t)
        = alSet st.votes v.hash (v.spend h t) := by
      simp [alUpd, hv]
    cases hp : alGet st.proposals v.proposal with
    | none =>
      simp only [spendVoteAt, unspendVoteAt, hsb, hp]
    | some p =>
      by_cases hgt : h > p.superblock
      · simp only [spendVoteAt, unspendVoteAt, hsb, hp, if_pos hgt]
      · have hsb1 : sbGet (sbSet st.sbvotes sb vh (v.spend h t)) sb vh
            = some (v.spend h t) := sbGet_sbSet_self _ hsb
        have hv1 : alGet (alSet st.votes v.hash (v.spend h t)) v.hash
            = some (v.spend h t) := alGet_alSet_self _ _ _
        have huns : (v.spend h t).unspend h t = v := spend_unspend_self hb hh
        simp only [spendVoteAt, hsb, hp, if_neg hgt, hupd]
        simp only [unspendVoteAt, hsb1, spend_proposal, hp, if_neg hgt, huns, spend_hash,
          hv1, sbSet_sbSet _ _ hsb, sbSet_of_get_eq hsb, alSet_alSet, alSet_of_get_eq hv]
  · intro st sb vh h t w hsb hw hne
    have huns : w.unspend h t = w := unspend_of_ne hne
    cases hp : alGet st.proposals w.proposal with
    | none => simp only [unspendVoteAt, hsb, hp]
    | some p =>
      by_cases hgt : h > p.superblock
      · simp only [unspendVoteAt, hsb, hp, if_pos hgt]
      · simp only [unspendVoteAt, hsb, hp, if_neg hgt, huns, sbSet_of_get_eq hsb, hw,
          alSet_of_get_eq hw]

/-- C9 witness: the identity composition at a concrete unspent vote, and
a concrete no-op `unspendVote` whose recorded marker does not match. -/
theorem claim_C9_witness :
    unspendVoteAt (spendVoteAt c9State 10 20 6 88) 10 20 6 88 = c9State ∧
    unspendVoteAt c9SpentState 10 20 6 88 = c9SpentState :=
  ⟨claim_C9_spend_unspend.1 c9State 10 20 6 88 c9Vote (by decide) (by decide)
      (by decide) (by decide),
    claim_C9_spend_unspend.2 c9SpentState 10 20 6 88 c9SpentVote (by decide) (by decide)
      (by decide)⟩

/-- C9 counterexample: for a vote already marked spent at `(5, 77)`,
spending at `(6, 88)` and unspending at `(6, 88)` does NOT restore the
state — the spend overwrote the previous marker and the unspend cleared
it, so the original `(5, 77)` marker is lost. -/
theorem claim_C9_counterexample :
    unspendVoteAt (spendVoteAt c9SpentState 10 20 6 88) 10 20 6 88 ≠ c9SpentState := by
  decide

/-- C10: every vote returned by `getVotes()`, `getVotes(proposalHash)`,
`getVotes(superblock)` and `getMutableSBVotes(proposalHash)` has its
spent marker unset (`spent()` false); a vote marked spent is never
visible through these queries. -/
theorem claim_C10_queries_hide_spent : ∀ (st : GovState) (proposalHash : Nat) (superblock : Int),
    (getVotesAll st).all (fun v => !v.spent) = true ∧
    (getVotesForProposal st proposalHash).all (fun v => !v.spent) = true ∧
    (getVotesInSB st superblock).all (fun v => !v.spent) = true ∧
    (getMutableSBVotes st proposalHash).all (fun v => !v.spent) = true := by
  intro st ph sb
  refine ⟨?_, ?_, ?_, ?_⟩
  · simp only [getVotesAll, List.all_eq_true]
    intro v hv
    exact (List.mem_filter.mp hv).2
  · rcases hp : alGet st.proposals ph with _ | p
    · simp [getVotesForProposal, hp]
    · rcases hs : alGet st.sbvotes p.superblock with _ | vs
      · simp [getVotesForProposal, hp, hs]
      · simp only [getVotesForProposal, hp, hs, List.all_eq_true]
        intro v hv
        exact (Bool.and_eq_true _ _ ▸ (List.mem_filter.mp hv).2).2
  · rcases hs : alGet st.sbvotes sb with _ | vs
    · simp [getVotesInSB, hs]
    · simp only [getVotesInSB, hs, List.all_eq_true]
      intro v hv
      exact (List.mem_filter.mp hv).2
  · rcases hp : alGet st.proposals ph with _ | p
    · simp [getMutableSBVotes, hp]
    · rcases hs : alGet st.sbvotes p.superblock with _ | vs
      · simp [getMutableSBVotes, hp, hs]
      · simp only [getMutableSBVotes, hp, hs, List.all_eq_true]
        intro v hv
        obtain ⟨kv, hkv, hkv2⟩ := List.mem_map.mp hv
        have hpred := (List.mem_filter.mp hkv).2
        rw [← hkv2]
        exact (Bool.and_eq_true _ _ ▸ hpred).2

/-- Component formula for the tally-summation fold of `getTally`. -/
theorem foldl_addTally_comp (ts : List Tally) (i : Tally) :
    (ts.foldl addTally i).cyes = i.cyes + (ts.map (·.cyes)).sum ∧
    (ts.foldl addTally i).cno = i.cno + (ts.map (·.cno)).sum ∧
    (ts.foldl addTally i).cabstain = i.cabstain + (ts.map (·.cabstain)).sum ∧
    (ts.foldl addTally i).yes = i.yes + (ts.map (·.yes)).sum ∧
    (ts.foldl addTally i).no = i.no + (ts.map (·.no)).sum ∧
    (ts.foldl addTally i).abstain = i.abstain + (ts.map (·.abstain)).sum := by
  induction ts generalizing i with
  | nil => simp
  | cons x xs ih =>
    obtain ⟨h1, h2, h3, h4, h5, h6⟩ := ih (addTally i x)
    refine ⟨?_, ?_, ?_, ?_, ?_, ?_⟩
    · rw [List.foldl_cons, h1]
      simp only [addTally, List.map_cons, List.sum_cons]
      ring
    · rw [List.foldl_cons, h2]
      simp only [addTally, List.map_cons, List.sum_cons]
      ring
    · rw [List.foldl_cons, h3]
      simp only [addTally, List.map_cons, List.sum_cons]
      ring
    · rw [List.foldl_cons, h4]
      simp only [addTally, List.map_cons, List.sum_cons]
      ring
    · rw [List.foldl_cons, h5]
      simp only [addTally, List.map_cons, List.sum_cons]
      ring
    · rw [List.foldl_cons, h6]
      simp only [addTally, List.map_cons, List.sum_cons]
      ring

/-- The counts of `finishTally` are clamped: the three counts at zero. -/
theorem finishTally_nonneg (params : GovParams) (t : Tally) :
    0 ≤ (finishTally params t).yes ∧ 0 ≤ (finishTally params t).no ∧
      0 ≤ (finishTally params t).abstain := by
  refine ⟨?_, ?_, ?_⟩ <;>
    · simp only [finishTally]
      split
      · exact le_refl 0
      · rename_i h
        exact not_lt.mp h

/-- Every sub-tally emitted by the group loop of `getTally` has
non-negative counts. -/
theorem tallyFold_nonneg (pvs : List SVote) (params : GovParams) :
    ∀ (keys : List Nat) (acc : List SVote × List Tally),
      (∀ t ∈ acc.2, 0 ≤ t.yes ∧ 0 ≤ t.no ∧ 0 ≤ t.abstain) →
      ∀ t ∈ (keys.foldl (tallyStep pvs params) acc).2,
        0 ≤ t.yes ∧ 0 ≤ t.no ∧ 0 ≤ t.abstain := by
  intro keys
  induction keys with
  | nil => intro acc h; exact h
  | cons k ks ih =>
    intro acc h
    rw [List.foldl_cons]
    refine ih _ ?_
    simp only [tallyStep]
    split
    · exact h
    · intro t ht
      rcases List.mem_append.mp ht with h' | h'
      · exact h t h'
      · rcases List.mem_singleton.mp h'
        exact finishTally_nonneg params _

/-- The vote counts of a `getTally` result are non-negative (the source
clamps each sub-tally at zero and sums). -/
theorem getTally_counts_nonneg (proposal : Nat) (votes : List SVote) (params : GovParams) :
    0 ≤ (getTally proposal votes params).yes ∧ 0 ≤ (getTally proposal votes params).no ∧
      0 ≤ (getTally proposal votes params).abstain := by
  simp only [getTally]
  set pvs := votes.filter (fun v => v.proposal == proposal) with hpvs
  set keys := isortBy (fun a b => decide (a ≤ b)) (dedupNat (pvs.map (·.opHash))) with hkeys
  set r := keys.foldl (tallyStep pvs params) ([], []) with hr
  obtain ⟨-, -, -, h4, h5, h6⟩ := foldl_addTally_comp r.2 {}
  have hnn : ∀ t ∈ r.2, 0 ≤ t.yes ∧ 0 ≤ t.no ∧ 0 ≤ t.abstain := by
    rw [hr]
    exact tallyFold_nonneg pvs params keys ([], []) (by simp)
  refine ⟨?_, ?_, ?_⟩
  · rw [h4]
    have hs : 0 ≤ (r.2.map (·.yes)).sum := by
      refine List.sum_nonneg ?_
      intro x hx
      obtain ⟨t, ht, rfl⟩ := List.mem_map.mp hx
      exact (hnn t ht).1
    simpa using hs
  · rw [h5]
    have hs : 0 ≤ (r.2.map (·.no)).sum := by
      refine List.sum_nonneg ?_
      intro x hx
      obtain ⟨t, ht, rfl⟩ := List.mem_map.mp hx
      exact (hnn t ht).2.1
    simpa using hs
  · rw [h6]
    have hs : 0 ≤ (r.2.map (·.abstain)).sum := by
      refine List.sum_nonneg ?_
      intro x hx
      obtain ⟨t, ht, rfl⟩ := List.mem_map.mp hx
      exact (hnn t ht).2.2
    simpa using hs

/-- For tallies with non-negative counts (all tallies the source
produces), the negated drop condition of `getSuperblockResults` is
exactly the four keep conditions stated by the specification. -/
theorem not_sbDropCond (u : Int) (t : Tally) (_hy : 0 ≤ t.yes) (hn : 0 ≤ t.no) :
    (!(sbDropCond u t)) = specKeepCond u t := by
  apply bool_eq_of_iff
  simp only [sbDropCond, specKeepCond, Bool.not_eq_true', Bool.or_eq_false_iff,
    Bool.and_eq_true, decide_eq_true_eq, decide_eq_false_iff_not, beq_eq_false_iff_ne,
    ne_eq, not_lt, not_le]
  omega

/-- C6: `getSuperblockResults(h)` returns exactly the proposals for
superblock `h` whose tally satisfies all four conditions —
`yes + no > 0`, `yes / (yes + no) ≥ 0.60` (inclusive), participation
`yes + no + abstain ≥ 0.25 × uniqueVotes` with
`uniqueVotes = uniqueAmount / voteBalance`, and `yes > 0`; and the 60%
bound is inclusive: a 6-yes / 4-no tally passes. -/
theorem claim_C6_results_filter :
    (∀ (st : GovState) (superblock : Int) (params : GovParams),
      isSuperblock superblock params = true →
      getSuperblockResults st superblock params =
        ((getProposalsForSuperblock st superblock).1.map
            (fun p => (p, getTally p.hash (getProposalsForSuperblock st superblock).2 params))).filter
          (fun pt =>
            specKeepCond
              (uniqueAmountOf (getProposalsForSuperblock st superblock).2 / params.voteBalance)
              pt.2)) ∧
    specKeepCond 40 { cyes := 6, cno := 4, cabstain := 0, yes := 6, no := 4, abstain := 0 } = true := by
  constructor
  · intro st sb params hsb
    simp only [getSuperblockResults, hsb, Bool.not_true, Bool.false_eq_true, if_false]
    refine List.filter_congr ?_
    intro pt hpt
    obtain ⟨p, hp, rfl⟩ := List.mem_map.mp hpt
    exact not_sbDropCond _ _ (getTally_counts_nonneg _ _ _).1
      (getTally_counts_nonneg _ _ _).2.1
  · decide

/-- C6 witness: the characterisation instantiated at a concrete state
and superblock height. -/
theorem claim_C6_witness :
    isSuperblock 100 cParams = true ∧
    getSuperblockResults cEmptyState 100 cParams =
      ((getProposalsForSuperblock cEmptyState 100).1.map
          (fun p => (p, getTally p.hash (getProposalsForSuperblock cEmptyState 100).2 cParams))).filter
        (fun pt =>
          specKeepCond
            (uniqueAmountOf (getProposalsForSuperblock cEmptyState 100).2 / cParams.voteBalance)
            pt.2) :=
  ⟨by decide, claim_C6_results_filter.1 cEmptyState 100 cParams (by decide)⟩

/-- The sort comparator of `getSuperblockPayees` coincides with the
specification's lexicographic order: `netYes` descending, then `yes`
descending, then `blockNumber` ascending. -/
theorem srcCmp_eq_specCmp (a b : SProposal × Tally) : srcCmp a b = specCmp a b := by
  unfold srcCmp specCmp
  by_cases h1 : a.2.netyes = b.2.netyes
  · by_cases h2 : a.2.yes = b.2.yes
    · simp [h1, h2]
    · simp [h1, h2]
  · simp [h1]

/-- The source's budget loop (`superblockTotal - amount >= 0`, deduct,
`erase` the front) computes the specification's greedy fill. -/
theorem payeeFill_eq_specGreedy : ∀ (l : List (SProposal × Tally)) (budget : Int),
    payeeFill budget l = specGreedy budget l := by
  intro l
  induction l with
  | nil => intro budget; rfl
  | cons r rest ih =>
    intro budget
    by_cases h : r.1.amount ≤ budget
    · simp only [payeeFill, specGreedy]
      rw [if_pos (by omega), if_pos h, ih]
    · simp only [payeeFill, specGreedy]
      rw [if_neg (by omega), if_neg h, ih]

/-- C7: `getSuperblockPayees` sorts the surviving proposals by `netYes`
descending, then `yes` descending, then `blockNumber` ascending, and
greedily fills a budget of `min(proposalMaxAmount, blockSubsidy(h))`:
a proposal that fits the remaining budget is emitted and deducted, one
that does not fit is skipped while later smaller proposals may still be
included.  With sorted `[B = 50, A = 100]`, budget 120 yields `[B]` and
budget 150 yields `[B, A]`. -/
theorem claim_C7_payees :
    (∀ (superblock : Int) (results : List (SProposal × Tally)) (params : GovParams),
      getSuperblockPayees superblock results params =
        specGreedy (min params.proposalMaxAmount (params.blockSubsidy superblock))
          (isortBy (fun a b => !(specCmp b a)) results)) ∧
    getSuperblockPayees 100 c7Results c7ParamsA = [⟨50, 222⟩] ∧
    getSuperblockPayees 100 c7Results c7ParamsB = [⟨50, 222⟩, ⟨100, 111⟩] := by
  refine ⟨?_, by decide, by decide⟩
  intro sb results params
  have hle : (fun (a b : SProposal × Tally) => !(srcCmp b a))
      = fun a b => !(specCmp b a) := by
    funext a b
    rw [srcCmp_eq_specCmp]
  rcases results with _ | ⟨r, rest⟩
  · simp [getSuperblockPayees, isortBy, specGreedy]
  · simp only [getSuperblockPayees, List.isEmpty_cons, Bool.false_eq_true, if_false]
    rw [payeeFill_eq_specGreedy, hle]

/-- Membership after an insertion comes from the inserted element or the
original list. -/
theorem mem_of_mem_insertLe {le : α → α → Bool} {x a : α} {l : List α}
    (h : x ∈ insertLe le a l) : x = a ∨ x ∈ l := by
  induction l with
  | nil => simpa [insertLe] using h
  | cons y ys ih =>
    by_cases hc : le a y
    · simp only [insertLe, if_pos hc] at h
      exact List.mem_cons.mp h
    · simp only [insertLe, if_neg hc] at h
      rcases List.mem_cons.mp h with h' | h'
      · exact Or.inr (h' ▸ List.mem_cons_self y ys)
      · rcases ih h' with h'' | h''
        · exact Or.inl h''
        · exact Or.inr (List.mem_cons_of_mem _ h'')

/-- Membership in an insertion-sorted list implies membership in the
input. -/
theorem mem_of_mem_isortBy {le : α → α → Bool} {x : α} {l : List α}
    (h : x ∈ isortBy le l) : x ∈ l := by
  induction l with
  | nil => simp [isortBy] at h
  | cons y ys ih =>
    simp only [isortBy] at h
    rcases mem_of_mem_insertLe h with h' | h'
    · exact h' ▸ List.mem_cons_self y ys
    · exact List.mem_cons_of_mem _ (ih h')

/-- Insertion grows the length by one. -/
theorem length_insertLe (le : α → α → Bool) (a : α) (l : List α) :
    (insertLe le a l).length = l.length + 1 := by
  induction l with
  | nil => rfl
  | cons y ys ih => by_cases hc : le a y <;> simp [insertLe, hc, ih]

/-- Sorting preserves the length. -/
theorem length_isortBy (le : α → α → Bool) (l : List α) :
    (isortBy le l).length = l.length := by
  induction l with
  | nil => rfl
  | cons y ys ih => simp [isortBy, length_insertLe, ih]

/-- A member of a superblock result set is a stored proposal scheduled
for that superblock. -/
theorem results_mem_proposal {st : GovState} {h : Int} {params : GovParams}
    {s : SProposal × Tally} (hs : s ∈ getSuperblockResults st h params) :
    s.1.superblock = h ∧ ∃ kv ∈ st.proposals, kv.2 = s.1 := by
  simp only [getSuperblockResults] at hs
  split at hs
  · simp at hs
  · have hs1 := (List.mem_filter.mp hs).1
    obtain ⟨p, hp, rfl⟩ := List.mem_map.mp hs1
    simp only [getProposalsForSuperblock, getProposalsSB] at hp
    have hp1 := (List.mem_filter.mp hp).1
    have hp2 := (List.mem_filter.mp hp).2
    have hpeq : p.superblock = h := by simpa using hp2
    obtain ⟨kv, hkv, hkv2⟩ := List.mem_map.mp (List.mem_filter.mp hp1).1
    exact ⟨hpeq, kv, hkv, hkv2⟩

/-- C5: for a proof-of-stake block at a superblock height, in any state
whose stored proposals respect the validated amount bound
(`amount ≤ min(proposalMaxAmount, blockSubsidy(superblock))`, enforced
by `Proposal::isValid` on ingest), an empty expected payee list makes
`isValidSuperblock` return true. -/
theorem claim_C5_empty_payees_valid :
    ∀ (st : GovState) (block : GBlock) (blockHeight : Int) (params : GovParams),
      isSuperblock blockHeight params = true →
      block.isPoS = true →
      (∀ kv ∈ st.proposals,
        kv.2.amount ≤ min params.proposalMaxAmount (params.blockSubsidy kv.2.superblock)) →
      getSuperblockPayees blockHeight (getSuperblockResults st blockHeight params) params = [] →
      isValidSuperblock st block blockHeight params = true := by
  intro st block h params hsb hpos hinv hpay
  have hresE : getSuperblockResults st h params = [] := by
    rcases hr : getSuperblockResults st h params with _ | ⟨r, rest⟩
    · rfl
    · exfalso
      rw [hr] at hpay
      simp only [getSuperblockPayees, List.isEmpty_cons, Bool.false_eq_true, if_false]
        at hpay
      rcases hsort : isortBy (fun a b => !(srcCmp b a)) (r :: rest) with _ | ⟨s, ss⟩
      · have hlen := length_isortBy (fun a b => !(srcCmp b a)) (r :: rest)
        rw [hsort] at hlen
        simp at hlen
      · rw [hsort] at hpay
        have hmem : s ∈ getSuperblockResults st h params := by
          rw [hr]
          exact mem_of_mem_isortBy (by rw [hsort]; exact List.mem_cons_self s ss)
        obtain ⟨hsb', kv, hkv, hkv2⟩ := results_mem_proposal hmem
        have hamt := hinv kv hkv
        rw [hkv2, hsb'] at hamt
        rw [payeeFill, if_pos (by omega)] at hpay
        exact List.cons_ne_nil _ _ hpay
  simp [isValidSuperblock, hsb, hpos, hresE]

/-- C5 witness: the theorem instantiated at a concrete state with no
proposals, where the payee list is empty and validation passes. -/
theorem claim_C5_witness :
    isSuperblock 100 cParams = true ∧
    getSuperblockPayees 100 (getSuperblockResults cEmptyState 100 cParams) cParams = [] ∧
    isValidSuperblock cEmptyState cBlockPoS 100 cParams = true :=
  ⟨by decide, by decide,
    claim_C5_empty_payees_valid cEmptyState cBlockPoS 100 cParams (by decide) rfl
      (by simp [cEmptyState]) (by decide)⟩

/-- A malformed output is skipped by the per-output extraction step. -/
theorem govOutStep_malformed (pValid : WProposal → Bool) (vValid : WVote → Bool)
    (sigH : WVote → Nat) (acc : ExtractAcc) (o : GOut)
    (hm : malformedBlob o.blob = true) :
    govOutStep pValid vValid sigH acc o = acc := by
  unfold malformedBlob at hm
  rcases hh : parseHeader o.blob with _ | ⟨ver, ty⟩
  · by_cases he : o.blob.isEmpty <;> simp [govOutStep, he, hh]
  · rw [hh] at hm
    obtain ⟨hver, hty⟩ := Bool.and_eq_true _ _ ▸ hm
    have hver' : ver = 1 := by simpa using hver
    by_cases he : o.blob.isEmpty
    · simp [govOutStep, he]
    · rcases Bool.or_eq_true _ _ ▸ hty with hty1 | hty2
      · obtain ⟨ht, hp⟩ := Bool.and_eq_true _ _ ▸ hty1
        have ht' : ty = 1 := by simpa using ht
        have hp' : parseProposal o.blob = none := by simpa using hp
        simp [govOutStep, he, hh, hver', ht', hp']
      · obtain ⟨ht, hp⟩ := Bool.and_eq_true _ _ ▸ hty2
        have ht' : ty = 2 := by simpa using ht
        have hp' : parseVote o.blob = none := by simpa using hp
        simp [govOutStep, he, hh, hver', ht', hp']

/-- C3: a transaction output whose OP_RETURN push-data is malformed
(truncated header, or truncated / length-mismatched body) is skipped as
a single output: block extraction over the block with the malformed
output equals block extraction over the block without it, with no error
and all other outputs, transactions and objects processed as before. -/
theorem claim_C3_malformed_output_skipped :
    ∀ (pValid : WProposal → Bool) (vValid : WVote → Bool) (sigH : WVote → Nat)
      (txs1 txs2 : List GTx) (cb : Bool) (outs1 outs2 : List GOut) (bad : GOut),
      malformedBlob bad.blob = true →
      govDataFromBlock pValid vValid sigH (txs1 ++ ⟨cb, outs1 ++ bad :: outs2⟩ :: txs2) =
        govDataFromBlock pValid vValid sigH (txs1 ++ ⟨cb, outs1 ++ outs2⟩ :: txs2) := by
  intro pValid vValid sigH txs1 txs2 cb outs1 outs2 bad hm
  unfold govDataFromBlock
  rw [List.foldl_append, List.foldl_append, List.foldl_cons, List.foldl_cons]
  congr 1
  by_cases hcb : cb
  · simp [hcb]
  · simp only [hcb, Bool.false_eq_true, if_false]
    rw [List.foldl_append, List.foldl_append, List.foldl_cons,
      govOutStep_malformed _ _ _ _ _ hm]

/-- C3 witness: a one-byte blob (truncated header) inside a one-output
transaction is skipped and extraction proceeds as if the output were
absent. -/
theorem claim_C3_witness :
    malformedBlob [1] = true ∧
    govDataFromBlock (fun _ => true) (fun _ => true) (fun _ => 0)
        [⟨false, [⟨[1]⟩]⟩] =
      govDataFromBlock (fun _ => true) (fun _ => true) (fun _ => 0) [⟨false, []⟩] :=
  ⟨by decide,
    claim_C3_malformed_output_skipped (fun _ => true) (fun _ => true) (fun _ => 0)
      [] [] false [] [] ⟨[1]⟩ (by decide)⟩

/-- The sum `sumKind` distributes over append. -/
theorem sumKind_append (k : Nat) (a b : List SVote) :
    sumKind k (a ++ b) = sumKind k a + sumKind k b := by
  simp [sumKind, List.filter_append]

/-- The sum `sumKind` on a cons. -/
theorem sumKind_cons (k : Nat) (v : SVote) (l : List SVote) :
    sumKind k (v :: l) = (if v.vote == k then v.amount else 0) + sumKind k l := by
  by_cases hv : v.vote == k <;> simp [sumKind, List.filter_cons, hv]

/-- Component formula for the per-group amount fold. -/
theorem foldl_subTallyStep (l : List SVote) (t : Tally) :
    (l.foldl subTallyStep t).cyes = t.cyes + sumKind 1 l ∧
    (l.foldl subTallyStep t).cno = t.cno + sumKind 0 l ∧
    (l.foldl subTallyStep t).cabstain = t.cabstain + sumKind 2 l := by
  induction l generalizing t with
  | nil => simp [sumKind]
  | cons v vs ih =>
    obtain ⟨h1, h2, h3⟩ := ih (subTallyStep t v)
    refine ⟨?_, ?_, ?_⟩
    · rw [List.foldl_cons, h1, sumKind_cons]
      unfold subTallyStep
      split_ifs <;> (simp_all; try ring)
    · rw [List.foldl_cons, h2, sumKind_cons]
      unfold subTallyStep
      split_ifs <;> (simp_all; try ring)
    · rw [List.foldl_cons, h3, sumKind_cons]
      unfold subTallyStep
      split_ifs <;> (simp_all; try ring)

/-- The three amount buckets of a sub-tally are the per-kind sums. -/
theorem subTallyAmounts_spec (l : List SVote) :
    (subTallyAmounts l).cyes = sumKind 1 l ∧ (subTallyAmounts l).cno = sumKind 0 l ∧
      (subTallyAmounts l).cabstain = sumKind 2 l := by
  have h := foldl_subTallyStep l {}
  simpa [subTallyAmounts] using h

/-- The function `finishTally` leaves the amount buckets untouched. -/
theorem finishTally_c (params : GovParams) (t : Tally) :
    (finishTally params t).cyes = t.cyes ∧ (finishTally params t).cno = t.cno ∧
      (finishTally params t).cabstain = t.cabstain := ⟨rfl, rfl, rfl⟩

/-- Membership after a keyed insert. -/
theorem mem_of_mem_idInsert {s : List SVote} {v x : SVote} (h : x ∈ idInsert s v) :
    x ∈ s ∨ x = v := by
  unfold idInsert at h
  split at h
  · exact Or.inl h
  · rcases List.mem_append.mp h with h' | h'
    · exact Or.inl h'
    · exact Or.inr (List.mem_singleton.mp h')

/-- A keyed insert preserves vote-id distinctness. -/
theorem pairwise_idInsert {s : List SVote} {v : SVote}
    (h : s.Pairwise (fun a b => a.hash ≠ b.hash)) :
    (idInsert s v).Pairwise (fun a b => a.hash ≠ b.hash) := by
  unfold idInsert
  split
  · exact h
  · rename_i hany
    rw [List.pairwise_append]
    refine ⟨h, by simp, ?_⟩
    intro a ha b hb
    rw [List.mem_singleton.mp hb]
    intro heq
    exact hany (List.any_eq_true.mpr ⟨a, ha, by simp [heq]⟩)

/-- Folding keyed inserts preserves vote-id distinctness and any
membership invariant satisfied by the inserted votes. -/
theorem foldl_idInsert_inv (P : SVote → Prop) :
    ∀ (t : List SVote) (init : List SVote),
      init.Pairwise (fun a b => a.hash ≠ b.hash) → (∀ x ∈ init, P x) →
      (∀ x ∈ t, P x) →
      (t.foldl idInsert init).Pairwise (fun a b => a.hash ≠ b.hash) ∧
        ∀ x ∈ t.foldl idInsert init, P x := by
  intro t
  induction t with
  | nil => intro init h1 h2 _; exact ⟨h1, h2⟩
  | cons v vs ih =>
    intro init h1 h2 h3
    rw [List.foldl_cons]
    refine ih _ (pairwise_idInsert h1) ?_ fun x hx => h3 x (List.mem_cons_of_mem _ hx)
    intro x hx
    rcases mem_of_mem_idInsert hx with h' | h'
    · exact h2 x h'
    · rw [h']
      exact h3 v (List.mem_cons_self _ _)

/-- A built vote set has pairwise-distinct vote-ids and draws its
elements from the input list. -/
theorem idSetOf_inv (l : List SVote) :
    (idSetOf l).Pairwise (fun a b => a.hash ≠ b.hash) ∧ ∀ x ∈ idSetOf l, x ∈ l :=
  foldl_idInsert_inv (· ∈ l) l [] List.Pairwise.nil (by simp) (fun _ hx => hx)

/-- The destination-group union loop of `getTally` preserves vote-id
distinctness and keeps all votes inside the proposal's vote list. -/
theorem foldl_destUnion_inv (pvs : List SVote) :
    ∀ (gs : List SVote) (init : List SVote),
      init.Pairwise (fun a b => a.hash ≠ b.hash) → (∀ x ∈ init, x ∈ pvs) →
      ((gs.foldl
          (fun a v => (idSetOf (pvs.filter (fun w => w.keyId == v.keyId))).foldl idInsert a)
          init).Pairwise (fun a b => a.hash ≠ b.hash)) ∧
        ∀ x ∈ gs.foldl
            (fun a v => (idSetOf (pvs.filter (fun w => w.keyId == v.keyId))).foldl idInsert a)
            init, x ∈ pvs := by
  intro gs
  induction gs with
  | nil => intro init h1 h2; exact ⟨h1, h2⟩
  | cons v vs ih =>
    intro init h1 h2
    rw [List.foldl_cons]
    have hsub : ∀ x ∈ idSetOf (pvs.filter (fun w => w.keyId == v.keyId)), x ∈ pvs :=
      fun x hx => List.mem_of_mem_filter ((idSetOf_inv _).2 x hx)
    have hstep := foldl_idInsert_inv (· ∈ pvs)
      (idSetOf (pvs.filter (fun w => w.keyId == v.keyId))) init h1 h2 hsub
    exact ih _ hstep.1 hstep.2

/-- One group iteration of `getTally` preserves the counting invariant:
the counted votes have pairwise-distinct vote-ids, come from the
proposal's votes, and the accumulated amount buckets are the per-kind
sums over the counted votes. -/
theorem tallyStep_inv (pvs : List SVote) (params : GovParams)
    (acc : List SVote × List Tally) (k : Nat)
    (h1 : acc.1.Pairwise (fun a b => a.hash ≠ b.hash))
    (h2 : ∀ x ∈ acc.1, x ∈ pvs)
    (hy : (acc.2.map (·.cyes)).sum = sumKind 1 acc.1)
    (hn : (acc.2.map (·.cno)).sum = sumKind 0 acc.1)
    (ha : (acc.2.map (·.cabstain)).sum = sumKind 2 acc.1) :
    ((tallyStep pvs params acc k).1.Pairwise (fun a b => a.hash ≠ b.hash)) ∧
      (∀ x ∈ (tallyStep pvs params acc k).1, x ∈ pvs) ∧
      ((tallyStep pvs params acc k).2.map (·.cyes)).sum
        = sumKind 1 (tallyStep pvs params acc k).1 ∧
      ((tallyStep pvs params acc k).2.map (·.cno)).sum
        = sumKind 0 (tallyStep pvs params acc k).1 ∧
      ((tallyStep pvs params acc k).2.map (·.cabstain)).sum
        = sumKind 2 (tallyStep pvs params acc k).1 := by
  have hgU := foldl_destUnion_inv pvs (idSetOf (pvs.filter (fun v => v.opHash == k)))
    (idSetOf (pvs.filter (fun v => v.opHash == k)))
    (idSetOf_inv _).1
    (fun x hx => List.mem_of_mem_filter ((idSetOf_inv _).2 x hx))
  simp only [tallyStep]
  split
  · exact ⟨h1, h2, hy, hn, ha⟩
  · have hfPW : (((idSetOf (pvs.filter (fun v => v.opHash == k))).foldl
        (fun a v => (idSetOf (pvs.filter (fun w => w.keyId == v.keyId))).foldl idInsert a)
        (idSetOf (pvs.filter (fun v => v.opHash == k)))).filter
          (fun v => !(acc.1.any (fun w => w.hash == v.hash)))).Pairwise
        (fun a b => a.hash ≠ b.hash) := List.Pairwise.filter _ hgU.1
    have hfsub : ∀ x ∈ ((idSetOf (pvs.filter (fun v => v.opHash == k))).foldl
        (fun a v => (idSetOf (pvs.filter (fun w => w.keyId == v.keyId))).foldl idInsert a)
        (idSetOf (pvs.filter (fun v => v.opHash == k)))).filter
          (fun v => !(acc.1.any (fun w => w.hash == v.hash))), x ∈ pvs :=
      fun x hx => hgU.2 x (List.mem_of_mem_filter hx)
    have hdisj : ∀ a ∈ acc.1,
        ∀ b ∈ ((idSetOf (pvs.filter (fun v => v.opHash == k))).foldl
          (fun a v => (idSetOf (pvs.filter (fun w => w.keyId == v.keyId))).foldl idInsert a)
          (idSetOf (pvs.filter (fun v => v.opHash == k)))).filter
            (fun v => !(acc.1.any (fun w => w.hash == v.hash))), a.hash ≠ b.hash := by
      intro a haMem b hb heq
      have h' := (List.mem_filter.mp hb).2
      rw [Bool.not_eq_true'] at h'
      have h'' := (List.any_eq_false.mp h') a haMem
      simp [heq] at h''
    refine ⟨?_, ?_, ?_, ?_, ?_⟩
    · exact List.pairwise_append.mpr ⟨h1, hfPW, hdisj⟩
    · intro x hx
      rcases List.mem_append.mp hx with h' | h'
      · exact h2 x h'
      · exact hfsub x h'
    · simp only [List.map_append, List.sum_append, List.map_cons, List.sum_cons,
        List.map_nil, List.sum_nil, hy, sumKind_append,
        (finishTally_c params _).1, (subTallyAmounts_spec _).1]
      ring
    · simp only [List.map_append, List.sum_append, List.map_cons, List.sum_cons,
        List.map_nil, List.sum_nil, hn, sumKind_append,
        (finishTally_c params _).2.1, (subTallyAmounts_spec _).2.1]
      ring
    · simp only [List.map_append, List.sum_append, List.map_cons, List.sum_cons,
        List.map_nil, List.sum_nil, ha, sumKind_append,
        (finishTally_c params _).2.2, (subTallyAmounts_spec _).2.2]
      ring

/-- The group loop of `getTally` maintains the counting invariant for
any sequence of group keys. -/
theorem tallyFold_inv (pvs : List SVote) (params : GovParams) :
    ∀ (keys : List Nat) (acc : List SVote × List Tally),
      acc.1.Pairwise (fun a b => a.hash ≠ b.hash) → (∀ x ∈ acc.1, x ∈ pvs) →
      (acc.2.map (·.cyes)).sum = sumKind 1 acc.1 →
      (acc.2.map (·.cno)).sum = sumKind 0 acc.1 →
      (acc.2.map (·.cabstain)).sum = sumKind 2 acc.1 →
      ((keys.foldl (tallyStep pvs params) acc).1.Pairwise (fun a b => a.hash ≠ b.hash)) ∧
        (∀ x ∈ (keys.foldl (tallyStep pvs params) acc).1, x ∈ pvs) ∧
        ((keys.foldl (tallyStep pvs params) acc).2.map (·.cyes)).sum
          = sumKind 1 (keys.foldl (tallyStep pvs params) acc).1 ∧
        ((keys.foldl (tallyStep pvs params) acc).2.map (·.cno)).sum
          = sumKind 0 (keys.foldl (tallyStep pvs params) acc).1 ∧
        ((keys.foldl (tallyStep pvs params) acc).2.map (·.cabstain)).sum
          = sumKind 2 (keys.foldl (tallyStep pvs params) acc).1 := by
  intro keys
  induction keys with
  | nil => intro acc h1 h2 hy hn ha; exact ⟨h1, h2, hy, hn, ha⟩
  | cons k ks ih =>
    intro acc h1 h2 hy hn ha
    rw [List.foldl_cons]
    obtain ⟨g1, g2, g3, g4, g5⟩ := tallyStep_inv pvs params acc k h1 h2 hy hn ha
    exact ih _ g1 g2 g3 g4 g5

/-- C8: in `getTally`, each vote's amount enters the final tally at most
once: there is a duplicate-free (by vote-id) selection of the votes
matching the proposal whose per-kind amount sums are exactly the
returned `cyes`, `cno` and `cabstain` buckets — the `counted` set
excludes any vote already tallied by an earlier transaction or
destination group. -/
theorem claim_C8_no_double_count :
    ∀ (proposal : Nat) (votes : List SVote) (params : GovParams),
      ∃ reps : List SVote,
        (∀ v ∈ reps, v ∈ votes.filter (fun w => w.proposal == proposal)) ∧
        reps.Pairwise (fun a b => a.hash ≠ b.hash) ∧
        (getTally proposal votes params).cyes = sumKind 1 reps ∧
        (getTally proposal votes params).cno = sumKind 0 reps ∧
        (getTally proposal votes params).cabstain = sumKind 2 reps := by
  intro proposal votes params
  obtain ⟨h1, h2, hy, hn, ha⟩ := tallyFold_inv
    (votes.filter (fun v => v.proposal == proposal)) params
    (isortBy (fun a b => decide (a ≤ b))
      (dedupNat ((votes.filter (fun v => v.proposal == proposal)).map (·.opHash))))
    ([], []) (by simp) (by simp) (by simp [sumKind]) (by simp [sumKind])
    (by simp [sumKind])
  refine ⟨_, h2, h1, ?_, ?_, ?_⟩
  · simp only [getTally]
    rw [(foldl_addTally_comp _ ({} : Tally)).1, hy]
    simp
  · simp only [getTally]
    rw [(foldl_addTally_comp _ ({} : Tally)).2.1, hn]
    simp
  · simp only [getTally]
    rw [(foldl_addTally_comp _ ({} : Tally)).2.2.1, ha]
    simp

end Gov
